import Mathlib

/-!
The kubestats event classifier, pollers and watch acquisition.

A shallow embedding of `src/main.go`, `src/poll.go` and `src/watcher.go`.

* Side effects (lines written by `log.Printf`, statsd counters and gauges, list queries sent
  to the API server) are collected in a list of `Effect`s, in program order.
* Instants are integers counting nanoseconds, durations likewise.
* A Go `map` is an association list with unique keys kept in insertion order.  Go leaves the
  order of `range` over a map unspecified; the results below only state facts that do not
  depend on that order (membership, multiplicities, sums).
* `go f()` is modelled by running `f` at the place where it is launched; the results about a
  poll cycle only count effects, which no interleaving changes.
* An index out of range (`xs[0]` on an empty slice) is a panic, modelled by `none`.
* A gauge keeps both the integer given to `gauge` and the number `float64` makes of it, which
  is what reaches statsd; the two differ only beyond 2^53.
* The calls of `kubeEventWatch` and the `select`s of `acquireWatch` are answered by two
  sequences given from outside; the retry loop carries fuel, and `none` means the fuel ran out.
-/

namespace Kubestats

/-! ## Effects and the helpers of `main.go` -/

/-- An argument passed to a `Printf`-style call. -/
inductive Arg where
  | str (s : String)
  | int (n : Int)
  | time (t : Int)
  | err (e : String)
  deriving DecidableEq

/-- The list queries of `poll.go`. -/
inductive Query where
  | controllers
  | services
  | endpoints (ns : String) (selector : List (String × String))
  | nodes
  | pods
  deriving DecidableEq

/-- Observable actions of the program. -/
inductive Effect where
  /-- a line written by `log.Printf format args...` -/
  | log (format : String) (args : List Arg)
  /-- `statsd.Count key delta` -/
  | count (key : String) (delta : Int)
  /-- the call `gauge(key, value)`, which hands `sent`, the number `float64(value)`, to
  `statsd.Gauge key` -/
  | gauge (key : String) (value : Int) (sent : Int)
  /-- a list query sent to the API server, and whether it came back with an error -/
  | query (q : Query) (failed : Bool)
  deriving DecidableEq

/-- `log.Printf`. -/
def logPrintf (format : String) (args : List Arg) : List Effect :=
  [Effect.log format args]

/-- `debugf` (main.go:61): writes to the log only when the `debug` flag is set. -/
def debugf (debug : Bool) (format : String) (args : List Arg) : List Effect :=
  if debug then logPrintf format args else []

/-- The number of binary digits of `a`, found in at most `fuel` halvings. -/
def bitLength : Nat → Nat → Nat
  | 0, _ => 0
  | fuel + 1, a => if a = 0 then 0 else bitLength fuel (a / 2) + 1

/-- The conversion `float64(value)` of a Go `int`.  The result is a whole number and is given
as such: `value` itself up to 2^53 in magnitude, and beyond that the nearest number with a
significand of 53 binary digits, a tie going to the even significand. -/
def float64 (value : Int) : Int :=
  let a := value.natAbs
  if a ≤ 9007199254740992 then value
  else
    let shift := bitLength a a - 53
    let q := a / 2 ^ shift
    let r := a % 2 ^ shift
    let half := 2 ^ (shift - 1)
    let q' := if half < r ∨ (r = half ∧ q % 2 = 1) then q + 1 else q
    value.sign * ((q' * 2 ^ shift : Nat) : Int)

/-- `gauge` (main.go:67): `statsd.Gauge(key, float64(value))`. -/
def gauge (key : String) (value : Int) : List Effect :=
  [Effect.gauge key value (float64 value)]

/-- `incr` (main.go:71): a counter increment of one. -/
def incr (key : String) : List Effect :=
  [Effect.count key 1]

/-- The counter increments among a list of effects, in order. -/
def counters : List Effect → List (String × Int)
  | [] => []
  | Effect.count k d :: rest => (k, d) :: counters rest
  | _ :: rest => counters rest

/-- The gauges among a list of effects, in order, each with the integer given to `gauge`. -/
def gauges : List Effect → List (String × Int)
  | [] => []
  | Effect.gauge k v _ :: rest => (k, v) :: gauges rest
  | _ :: rest => gauges rest

/-- The gauges among a list of effects, in order, each with the number handed to
`statsd.Gauge`. -/
def sentGauges : List Effect → List (String × Int)
  | [] => []
  | Effect.gauge k _ s :: rest => (k, s) :: sentGauges rest
  | _ :: rest => sentGauges rest

/-- Every gauge of the list hands `float64` of its integer to `statsd.Gauge`. -/
def Converted (out : List Effect) : Prop :=
  sentGauges out = (gauges out).map (fun g => (g.1, float64 g.2))

/-- The log lines among a list of effects, in order. -/
def logs : List Effect → List (String × List Arg)
  | [] => []
  | Effect.log f a :: rest => (f, a) :: logs rest
  | _ :: rest => logs rest

/-- The list queries among a list of effects, with their outcome. -/
def queries : List Effect → List (Query × Bool)
  | [] => []
  | Effect.query q b :: rest => (q, b) :: queries rest
  | _ :: rest => queries rest

/-! ## The event classifier (`watcher.go`, `handleEvent`) -/

/-- The fields of `api.Event` that `handleEvent` reads. -/
structure Event where
  sourceComponent : String
  reason : String
  kind : String
  ns : String
  name : String
  count : Int
  lastTimestamp : Int
  message : String
  deriving DecidableEq

/-- One second, in nanoseconds (`time.Second`). -/
def second : Int := 1000000000

/-- Go's `unicode.IsSpace`. -/
def isSpace (c : Char) : Bool :=
  let n := c.toNat
  (9 ≤ n && n ≤ 13) || n == 32 || n == 0x85 || n == 0xA0 || n == 0x1680 ||
  (0x2000 ≤ n && n ≤ 0x200a) || n == 0x2028 || n == 0x2029 || n == 0x202f ||
  n == 0x205f || n == 0x3000

/-- `strings.TrimSpace`. -/
def trimSpace (s : String) : String :=
  String.mk (((s.data.dropWhile isSpace).reverse.dropWhile isSpace).reverse)

/-- The test of watcher.go:114, `e.LastTimestamp.UTC().Before(now.UTC().Add(-5 * time.Second))`. -/
def tooOld (now : Int) (e : Event) : Bool :=
  decide (e.lastTimestamp < now + (-5) * second)

/-- The two values the variable `fn` of `handleEvent` takes. -/
inductive Logger where
  | debugf
  | logPrintf
  deriving DecidableEq

/-- Calling the logger held in `fn`. -/
def Logger.call (fn : Logger) (debug : Bool) (format : String) (args : List Arg) : List Effect :=
  match fn with
  | Logger.debugf => Kubestats.debugf debug format args
  | Logger.logPrintf => Kubestats.logPrintf format args

/-- `handleEvent` (watcher.go:111), at the instant `now` with the flag `debug`. -/
def handleEvent (debug : Bool) (now : Int) (e : Event) : List Effect :=
  if tooOld now e then
    debugf debug "ignoring old event: %s %q %s %s/%s\n"
        [Arg.str e.sourceComponent, Arg.str e.reason, Arg.str e.kind, Arg.str e.ns,
          Arg.str e.name]
      ++ debugf debug "  from %v\n" [Arg.time e.lastTimestamp]
      ++ debugf debug "  %s\n" [Arg.str (trimSpace e.message)]
  else
    let fn := Logger.debugf
    (if e.reason = "failed" then
        -- `fn = log.Printf`: the assignment is followed by no call
        let _fn := Logger.logPrintf
        []
      else
        fn.call debug "Received event: %s %q %s %s/%s"
            [Arg.str e.sourceComponent, Arg.str e.reason, Arg.str e.kind, Arg.str e.ns,
              Arg.str e.name]
          ++ (if e.count > 1 then fn.call debug " (x%d)" [Arg.int e.count] else [])
          ++ fn.call debug "  %s\n" [Arg.str (trimSpace e.message)])
      ++ incr ("event." ++ e.sourceComponent ++ "." ++ e.kind ++ "." ++ e.reason)

/-- An event with reason "failed" from the kubelet about a pod, last seen at second 9. -/
def failedPodEvent : Event :=
  { sourceComponent := "kubelet", reason := "failed", kind := "Pod", ns := "default",
    name := "web-1", count := 3, lastTimestamp := 9 * second, message := " image pull failed " }

/-! ## Go maps -/

/-- `m[k]++` on a `map[string]int`: a missing key starts from the zero value. -/
def mapIncr : List (String × Int) → String → List (String × Int)
  | [], k => [(k, 1)]
  | (k', v) :: m, k => if k' = k then (k', v + 1) :: m else (k', v) :: mapIncr m k

/-- `m[k] = v` on a `map[string]string`. -/
def mapSet : List (String × String) → String → String → List (String × String)
  | [], k, v => [(k, v)]
  | (k', v') :: m, k, v => if k' = k then (k', v) :: m else (k', v') :: mapSet m k v

/-- `m[k]` on a `map[string]string`: the empty string when the key is missing. -/
def mapGet : List (String × String) → String → String
  | [], _ => ""
  | (k', v') :: m, k => if k' = k then v' else mapGet m k

/-! ## The pollers (`poll.go`) -/

/-- A Go `error`: `none` is `nil`. -/
abbrev Err := Option String

/-- What a `List` call of the client returns: the items of the list object and the error. -/
structure ListResult (α : Type) where
  items : List α
  err : Err

/-- The fields of `api.ReplicationController` in play. -/
structure ReplicationController where
  ns : String
  name : String
  specReplicas : Int
  statusReplicas : Int
  deriving DecidableEq

/-- An `api.EndpointSubset`, with the addresses it lists. -/
structure EndpointSubset where
  addresses : List String
  deriving DecidableEq

/-- An `api.Endpoints` object. -/
structure Endpoints where
  subsets : List EndpointSubset
  deriving DecidableEq

/-- The fields of `api.Service` in play. -/
structure Service where
  ns : String
  name : String
  selector : List (String × String)
  deriving DecidableEq

/-- An `api.NodeCondition`. -/
structure NodeCondition where
  type : String
  status : String
  deriving DecidableEq

/-- The fields of `api.Node` in play; `addresses` holds the `Address` of each entry of
`Status.Addresses`. -/
structure Node where
  name : String
  addresses : List String
  conditions : List NodeCondition
  deriving DecidableEq

/-- The field of `api.Pod` in play. -/
structure Pod where
  hostIP : String
  deriving DecidableEq

/-- `withKube` (poll.go:24).  `client` is the error returned by `unversioned.New`; `f` is run
only when there is none, and gives its effects and its error, or `none` when it panics. -/
def withKube (debug : Bool) (client : Err) (f : Unit → Option (List Effect × Err)) :
    Option (List Effect) :=
  match client with
  | some e => some (debugf debug "client not created: %v\n" [Arg.err e])
  | none =>
    match f () with
    | none => none
    | some (out, none) => some out
    | some (out, some e) =>
      some (out ++ debugf debug "kubeFunc returned error: %v\n" [Arg.err e]
        ++ incr "kubestats.errors")

/-- The gauges of the loop of `pollRCs` (poll.go:47). -/
def rcGauges : List ReplicationController → List Effect
  | [] => []
  | i :: rest => gauge ("rc." ++ i.ns ++ "." ++ i.name) i.statusReplicas ++ rcGauges rest

/-- `pollRCs` (poll.go:43). -/
def pollRCs (debug : Bool) (client : Err) (rcs : ListResult ReplicationController) :
    Option (List Effect) :=
  match withKube debug client (fun _ =>
      some (Effect.query Query.controllers rcs.err.isSome :: rcGauges rcs.items, rcs.err)) with
  | none => none
  | some out => some (debugf debug "polling RCs" [] ++ out)

/-- The nested loops of `showSvc` (poll.go:59): the addresses of all subsets, added to `e`. -/
def countAddresses (e : Int) : List Endpoints → Int
  | [] => e
  | ep :: rest =>
    countAddresses (ep.subsets.foldl (fun e ss => e + (ss.addresses.length : Int)) e) rest

/-- `showSvc` (poll.go:55). -/
def showSvc (debug : Bool) (client : Err) (eps : ListResult Endpoints) (svc : Service) :
    Option (List Effect) :=
  withKube debug client (fun _ =>
    let e := countAddresses 0 eps.items
    some (Effect.query (Query.endpoints svc.ns svc.selector) eps.err.isSome
      :: gauge ("svc." ++ svc.ns ++ "." ++ svc.name) e, eps.err))

/-- The loop of `pollSVCs` (poll.go:74), one `showSvc` per service. -/
def showAll (debug : Bool) (epClient : Service → Err) (eps : Service → ListResult Endpoints) :
    List Service → Option (List Effect)
  | [] => some []
  | i :: rest =>
    match showSvc debug (epClient i) (eps i) i, showAll debug epClient eps rest with
    | some a, some b => some (a ++ b)
    | _, _ => none

/-- `pollSVCs` (poll.go:70). -/
def pollSVCs (debug : Bool) (client : Err) (svcs : ListResult Service)
    (epClient : Service → Err) (eps : Service → ListResult Endpoints) : Option (List Effect) :=
  match withKube debug client (fun _ =>
      match showAll debug epClient eps svcs.items with
      | none => none
      | some shown => some (Effect.query Query.services svcs.err.isSome :: shown, svcs.err)) with
  | none => none
  | some out => some (debugf debug "polling services" [] ++ out)

/-- The bucket chosen for a condition of type "Ready" (poll.go:93). -/
def readyKey (status : String) : String :=
  if status = "True" then "ready" else if status = "False" then "notready" else "unknown"

/-- The loop over the conditions of one node (poll.go:91). -/
def countConditions : List (String × Int) → List NodeCondition → List (String × Int)
  | status, [] => status
  | status, c :: rest =>
    if c.type = "Ready" then countConditions (mapIncr status (readyKey c.status)) rest
    else countConditions status rest

/-- The loop over the nodes (poll.go:89); `none` when `i.Status.Addresses[0]` is out of
range. -/
def nodesLoop : List (String × Int) → List (String × String) → List Node →
    Option (List (String × Int) × List (String × String))
  | status, names, [] => some (status, names)
  | status, names, i :: rest =>
    match i.addresses with
    | [] => none
    | a :: _ => nodesLoop (countConditions status i.conditions) (mapSet names a i.name) rest

/-- The gauges of the loop of poll.go:104. -/
def statusGauges : List (String × Int) → List Effect
  | [] => []
  | (st, num) :: rest => gauge ("nodes.status." ++ st) num ++ statusGauges rest

/-- The first loop of `pollPods` (poll.go:118): pods counted by host address. -/
def countPods : List (String × Int) → List Pod → List (String × Int)
  | ppn, [] => ppn
  | ppn, i :: rest => countPods (mapIncr ppn i.hostIP) rest

/-- The gauges of the second loop of `pollPods` (poll.go:121). -/
def podGauges (names : List (String × String)) : List (String × Int) → List Effect
  | [] => []
  | (ip, p) :: rest => gauge ("nodes.pods." ++ mapGet names ip) p ++ podGauges names rest

/-- `pollPods` (poll.go:113). -/
def pollPods (debug : Bool) (client : Err) (pods : ListResult Pod)
    (names : List (String × String)) : Option (List Effect) :=
  withKube debug client (fun _ =>
    let ppn := countPods [] pods.items
    some (Effect.query Query.pods pods.err.isSome :: podGauges names ppn, pods.err))

/-- `pollNodes` (poll.go:83). -/
def pollNodes (debug : Bool) (client : Err) (nodes : ListResult Node) (podsClient : Err)
    (pods : ListResult Pod) : Option (List Effect) :=
  match withKube debug client (fun _ =>
      match nodesLoop [] [] nodes.items with
      | none => none
      | some (status, names) =>
        match pollPods debug podsClient pods names with
        | none => none
        | some podsOut =>
          some (Effect.query Query.nodes nodes.err.isSome :: (statusGauges status ++ podsOut),
            nodes.err)) with
  | none => none
  | some out => some (debugf debug "polling nodes" [] ++ out)

/-- What the API server answers during one poll cycle. -/
structure World where
  rcClient : Err
  rcs : ListResult ReplicationController
  svcClient : Err
  svcs : ListResult Service
  epClient : Service → Err
  eps : Service → ListResult Endpoints
  nodesClient : Err
  nodes : ListResult Node
  podsClient : Err
  pods : ListResult Pod

/-- `pollKubernetes` (poll.go:12), one poll cycle. -/
def pollKubernetes (debug : Bool) (w : World) : Option (List Effect) :=
  match pollRCs debug w.rcClient w.rcs,
      pollSVCs debug w.svcClient w.svcs w.epClient w.eps,
      pollNodes debug w.nodesClient w.nodes w.podsClient w.pods with
  | some a, some b, some c => some (debugf debug "polling kubernetes API" [] ++ a ++ b ++ c)
  | _, _, _ => none

/-- The increments of the counter `kubestats.errors` among a list of effects. -/
def errorIncrements (out : List Effect) : Nat :=
  ((counters out).filter (fun c => decide (c.1 = "kubestats.errors"))).length

/-- The list queries that came back with an error among a list of effects. -/
def failedQueries (out : List Effect) : Nat :=
  ((queries out).filter (fun q => q.2)).length

/-- A controller that declares three replicas and has one. -/
def webController : ReplicationController :=
  { ns := "default", name := "web", specReplicas := 3, statusReplicas := 1 }

/-- A controller whose status holds 2^53 + 1 replicas. -/
def bigController : ReplicationController :=
  { ns := "default", name := "big", specReplicas := 1, statusReplicas := 9007199254740993 }

/-- A node that reports no address. -/
def bareNode : Node :=
  { name := "node-1", addresses := [], conditions := [{ type := "Ready", status := "True" }] }

/-- One when the error is not nil, zero otherwise. -/
def failure (err : Err) : Nat :=
  if err.isSome then 1 else 0

/-- The list queries of a full poll cycle that come back with an error: controllers,
services, the endpoints of each service returned, nodes, pods. -/
def failures (w : World) : Nat :=
  failure w.rcs.err + failure w.svcs.err
    + ((w.svcs.items.map (fun s => failure (w.eps s).err)).sum
      + (failure w.nodes.err + failure w.pods.err))

/-- `m[k]` on a `map[string]int`: zero when the key is missing. -/
def mapCount : List (String × Int) → String → Int
  | [], _ => 0
  | (k', v) :: m, k => if k' = k then v else mapCount m k

/-- A map as the counting loops build it: no key twice, every count positive. -/
def Counted (m : List (String × Int)) : Prop :=
  (m.map Prod.fst).Nodup ∧ ∀ e ∈ m, 0 < e.2

/-- The gauges of a given name among a list of effects. -/
def gaugesNamed (key : String) (out : List Effect) : List (String × Int) :=
  (gauges out).filter (fun g => decide (g.1 = key))

/-- The number of conditions of type "Ready", over all nodes of a list, that fall in the
bucket `k`. -/
def readyConditions (k : String) : List Node → Nat
  | [] => 0
  | i :: rest =>
    (i.conditions.filter (fun c => decide (c.type = "Ready" ∧ readyKey c.status = k))).length
      + readyConditions k rest

/-- The number of conditions of type "Ready" over all nodes of a list. -/
def readyTotal : List Node → Nat
  | [] => 0
  | i :: rest => (i.conditions.filter (fun c => decide (c.type = "Ready"))).length + readyTotal rest

/-- The number of pods whose host address maps to the name `n` through `names`. -/
def podsOn (names : List (String × String)) (n : String) (pods : List Pod) : Nat :=
  (pods.filter (fun i => decide (mapGet names i.hostIP = n))).length

/-- The number of pods with host address `ip`. -/
def podsAt (ip : String) (pods : List Pod) : Nat :=
  (pods.filter (fun i => decide (i.hostIP = ip))).length

/-- Two ready nodes, one that is not ready, and one without a condition of type "Ready". -/
def fourNodes : List Node :=
  [ { name := "n1", addresses := ["10.0.0.1"], conditions := [{ type := "Ready", status := "True" }] },
    { name := "n2", addresses := ["10.0.0.2"], conditions := [{ type := "Ready", status := "True" }] },
    { name := "n3", addresses := ["10.0.0.3"], conditions := [{ type := "Ready", status := "False" }] },
    { name := "n4", addresses := ["10.0.0.4"],
      conditions := [{ type := "OutOfDisk", status := "False" }] } ]

/-- The address-to-name map that `pollNodes` builds from `fourNodes`. -/
def fourNames : List (String × String) :=
  [("10.0.0.1", "n1"), ("10.0.0.2", "n2"), ("10.0.0.3", "n3"), ("10.0.0.4", "n4")]

/-- Two pods on host addresses that no node reports. -/
def strayPods : List Pod :=
  [{ hostIP := "10.0.0.8" }, { hostIP := "10.0.0.9" }]

/-- A cycle in which every client is created, the services query and the pods query fail,
and the other queries succeed. -/
def sampleWorld : World :=
  { rcClient := none
    rcs := { items := [webController], err := none }
    svcClient := none
    svcs := { items := [{ ns := "default", name := "web", selector := [("app", "web")] }],
              err := some "timeout" }
    epClient := fun _ => none
    eps := fun _ => { items := [{ subsets := [{ addresses := ["10.1.0.1", "10.1.0.2"] }] }],
                      err := none }
    nodesClient := none
    nodes := { items := fourNodes, err := none }
    podsClient := none
    pods := { items := strayPods, err := some "timeout" } }

/-! ## Watch acquisition (`watcher.go`) -/

/-- The three ways a call of `kubeEventWatch` can go: the client is not created, the `Watch`
call returns an error, or it returns the watch `w`. -/
inductive WatchResult where
  | clientErr (e : String)
  | watchErr (e : String)
  | ok (w : Nat)
  deriving DecidableEq

/-- Whether the call returns a non-nil error. -/
def WatchResult.failed : WatchResult → Bool
  | WatchResult.ok _ => false
  | _ => true

/-- `kubeEventWatch` (watcher.go:17): its effects and what it returns. -/
def kubeEventWatch (debug : Bool) (r : WatchResult) : List Effect × Except String Nat :=
  match r with
  | WatchResult.clientErr e =>
    (debugf debug "client not created: %v\n" [Arg.err e], Except.error e)
  | WatchResult.watchErr e =>
    (debugf debug "kubeEventWatch returned error: %v\n" [Arg.err e] ++ incr "kubestats.errors",
      Except.error e)
  | WatchResult.ok w => ([], Except.ok w)

/-- The branch a `select` of `acquireWatch` takes. -/
inductive Sel where
  | done
  | tick
  deriving DecidableEq

/-- The steps of a run of `acquireWatch`. -/
inductive Step where
  /-- a log line or a counter -/
  | eff (e : Effect)
  /-- a call of `kubeEventWatch` -/
  | attempt
  /-- `time.NewTicker d` -/
  | newTicker (d : Int)
  /-- a receive from `ticker.C` -/
  | tick
  /-- a receive from `ctx.Done()` -/
  | done
  /-- `ticker.Stop()` -/
  | tickerStop
  /-- `out <- w` -/
  | send (w : Nat)
  /-- the function returns -/
  | ret
  deriving DecidableEq

/-- The retry loop of `acquireWatch` (watcher.go:46), entered after `k + 1` calls of
`kubeEventWatch`.  `results i` is how the call number `i` goes and `selects j` the branch the
`select` number `j` takes, both counted from zero; `none` when the fuel runs out. -/
def acquireRetry (debug : Bool) (results : Nat → WatchResult) (selects : Nat → Sel) :
    Nat → Nat → Option (List Step)
  | 0, _ => none
  | fuel + 1, k =>
    let head := (debugf debug "watch aquisition retrying 2s\n" []).map Step.eff
      ++ [Step.newTicker (2 * second)]
    match selects k with
    | Sel.done =>
      some (head ++ [Step.done]
        ++ (debugf debug "watch aquisition cancelled\n" []).map Step.eff
        ++ [Step.tickerStop, Step.ret])
    | Sel.tick =>
      match kubeEventWatch debug (results (k + 1)) with
      | (out, Except.ok w) =>
        some (head ++ [Step.tick, Step.attempt] ++ out.map Step.eff ++ [Step.send w, Step.ret])
      | (out, Except.error _) =>
        match acquireRetry debug results selects fuel (k + 1) with
        | none => none
        | some rest => some (head ++ [Step.tick, Step.attempt] ++ out.map Step.eff ++ rest)

/-- `acquireWatch` (watcher.go:37). -/
def acquireWatch (debug : Bool) (results : Nat → WatchResult) (selects : Nat → Sel)
    (fuel : Nat) : Option (List Step) :=
  match kubeEventWatch debug (results 0) with
  | (out, Except.ok w) => some ([Step.attempt] ++ out.map Step.eff ++ [Step.send w, Step.ret])
  | (out, Except.error _) =>
    match acquireRetry debug results selects fuel 0 with
    | none => none
    | some rest => some ([Step.attempt] ++ out.map Step.eff ++ rest)

/-- A run without its log lines and counters. -/
def skeleton : List Step → List Step
  | [] => []
  | Step.eff _ :: rest => skeleton rest
  | s :: rest => s :: skeleton rest

/-- The number of calls of `kubeEventWatch` in a run. -/
def attempts (tr : List Step) : Nat :=
  tr.count Step.attempt

/-- The watches sent on the channel `out` in a run. -/
def sent : List Step → List Nat
  | [] => []
  | Step.send w :: rest => w :: sent rest
  | _ :: rest => sent rest

/-- One retry that reaches its call: a new two-second ticker, its tick, the call. -/
def retryRound : List Step :=
  [Step.newTicker (2 * second), Step.tick, Step.attempt]

/-- The steps of `n` retries that all reach their call. -/
def retryRounds : Nat → List Step
  | 0 => []
  | n + 1 => retryRound ++ retryRounds n

/-- An API server whose first two watch calls fail and whose third returns the watch 7. -/
def twoFailures (i : Nat) : WatchResult :=
  if i < 2 then WatchResult.watchErr "connection refused" else WatchResult.ok 7

/-! ## The lifecycle controller (`main.go`, `workers`) -/

/-- The tasks of the program that run on a context, each with the context it is given. -/
inductive Task where
  | scheduler (ctx : Nat)
  | watcher (ctx : Nat)
  deriving DecidableEq

/-- What `workers` leaves behind: the goroutines it launched, and the context its returned
cancel function cancels. -/
structure Started where
  launched : List Task
  cancels : Nat
  deriving DecidableEq

/-- `workers` (main.go:32); `ctx` names the context made by `context.WithCancel`. -/
def workers (ctx : Nat) : Started :=
  { launched := [Task.scheduler ctx], cancels := ctx }

/-! ## Reading a list of effects -/

theorem counters_append (a b : List Effect) : counters (a ++ b) = counters a ++ counters b := by
  induction a with
  | nil => rfl
  | cons e a ih => cases e <;> simp [counters, ih]

theorem gauges_append (a b : List Effect) : gauges (a ++ b) = gauges a ++ gauges b := by
  induction a with
  | nil => rfl
  | cons e a ih => cases e <;> simp [gauges, ih]

theorem logs_append (a b : List Effect) : logs (a ++ b) = logs a ++ logs b := by
  induction a with
  | nil => rfl
  | cons e a ih => cases e <;> simp [logs, ih]

theorem queries_append (a b : List Effect) : queries (a ++ b) = queries a ++ queries b := by
  induction a with
  | nil => rfl
  | cons e a ih => cases e <;> simp [queries, ih]

theorem counters_debugf (debug : Bool) (f : String) (a : List Arg) :
    counters (debugf debug f a) = [] := by
  cases debug <;> rfl

theorem gauges_debugf (debug : Bool) (f : String) (a : List Arg) :
    gauges (debugf debug f a) = [] := by
  cases debug <;> rfl

theorem queries_debugf (debug : Bool) (f : String) (a : List Arg) :
    queries (debugf debug f a) = [] := by
  cases debug <;> rfl

theorem sentGauges_append (a b : List Effect) :
    sentGauges (a ++ b) = sentGauges a ++ sentGauges b := by
  induction a with
  | nil => rfl
  | cons e a ih => cases e <;> simp [sentGauges, ih]

theorem sentGauges_debugf (debug : Bool) (f : String) (a : List Arg) :
    sentGauges (debugf debug f a) = [] := by
  cases debug <;> rfl

theorem float64_exact (value : Int) (h : value.natAbs ≤ 9007199254740992) :
    float64 value = value := by
  simp [float64, h]

theorem converted_append (a b : List Effect) (ha : Converted a) (hb : Converted b) :
    Converted (a ++ b) := by
  unfold Converted at ha hb ⊢
  rw [sentGauges_append, gauges_append, List.map_append, ha, hb]

theorem converted_debugf (debug : Bool) (f : String) (a : List Arg) :
    Converted (debugf debug f a) := by
  cases debug <;> rfl

theorem converted_incr (key : String) : Converted (incr key) := rfl

theorem converted_gauge (key : String) (value : Int) : Converted (gauge key value) := rfl

theorem converted_query (q : Query) (b : Bool) (l : List Effect) (h : Converted l) :
    Converted (Effect.query q b :: l) := by
  unfold Converted at h ⊢
  simpa [sentGauges, gauges] using h

theorem tooOld_iff (now : Int) (e : Event) :
    tooOld now e = true ↔ now - e.lastTimestamp > 5 * second := by
  simp only [tooOld, decide_eq_true_eq]
  constructor <;> intro h <;> linarith

theorem counters_handleEvent (debug : Bool) (now : Int) (e : Event) :
    counters (handleEvent debug now e) =
      if tooOld now e = true then []
      else [("event." ++ e.sourceComponent ++ "." ++ e.kind ++ "." ++ e.reason, 1)] := by
  unfold handleEvent
  by_cases h : tooOld now e = true
  · simp [h, counters_append, counters_debugf]
  · by_cases hr : e.reason = "failed"
    · simp [h, hr, counters_append, incr, counters]
    · simp [h, hr, counters_append, counters_debugf, Logger.call, incr, counters]
      split
      · exact counters_debugf _ _ _
      · rfl

/-! ## The event classifier -/

/-- C1: `handleEvent` drops an event, emitting no counter, exactly when the event's last
timestamp is more than five seconds before now; an event that is exactly five seconds old is
not dropped. -/
theorem handleEvent_drops_iff (debug : Bool) (now : Int) (e : Event) :
    (tooOld now e = true ↔ now - e.lastTimestamp > 5 * second) ∧
    (counters (handleEvent debug now e) = [] ↔ now - e.lastTimestamp > 5 * second) ∧
    counters (handleEvent debug now { e with lastTimestamp := now - 5 * second }) ≠ [] := by
  refine ⟨tooOld_iff now e, ?_, ?_⟩
  · rw [counters_handleEvent, ← tooOld_iff]
    by_cases h : tooOld now e = true <;> simp [h]
  · rw [counters_handleEvent]
    have h : ¬ (tooOld now { e with lastTimestamp := now - 5 * second } = true) := by
      rw [tooOld_iff]
      simp
    simp [h]

/-- C2: an event that is not dropped yields exactly one counter increment, of delta one and
named `event.<component>.<kind>.<reason>`, whatever its occurrence count; a dropped event
yields no counter. -/
theorem handleEvent_one_counter (debug : Bool) (now : Int) (e : Event) :
    counters (handleEvent debug now e) =
      if now - e.lastTimestamp > 5 * second then []
      else [("event." ++ e.sourceComponent ++ "." ++ e.kind ++ "." ++ e.reason, 1)] := by
  rw [counters_handleEvent]
  by_cases h : tooOld now e = true
  · have h2 := (tooOld_iff now e).1 h
    simp [h, h2]
  · have h2 : ¬ (now - e.lastTimestamp > 5 * second) := fun h3 => h ((tooOld_iff now e).2 h3)
    simp [h, h2]

/-- C3: an event with reason "failed" that is one second old is counted, but nothing is
written to the log for it, with the debug flag set or not: the whole output of `handleEvent`
is the counter increment. -/
theorem handleEvent_failed_writes_no_log (debug : Bool) (now : Int) (e : Event) :
    handleEvent debug now { e with reason := "failed", lastTimestamp := now - second } =
        [Effect.count ("event." ++ e.sourceComponent ++ "." ++ e.kind ++ "." ++ "failed") 1] ∧
    handleEvent debug (10 * second) failedPodEvent =
        [Effect.count "event.kubelet.Pod.failed" 1] ∧
    logs (handleEvent debug (10 * second) failedPodEvent) = [] := by
  refine ⟨?_, ?_, by cases debug <;> decide⟩
  · have h : ¬ (tooOld now { e with reason := "failed", lastTimestamp := now - second } = true) := by
      rw [tooOld_iff]
      simp [second]
    simp [handleEvent, h, incr]
  · cases debug <;> decide

/-! ## Replication controllers -/

theorem gauges_rcGauges (rcs : List ReplicationController) :
    gauges (rcGauges rcs) =
      rcs.map (fun i => ("rc." ++ i.ns ++ "." ++ i.name, i.statusReplicas)) := by
  induction rcs with
  | nil => rfl
  | cons i rest ih => simp [rcGauges, gauge, gauges, ih]

theorem converted_rcGauges (rcs : List ReplicationController) : Converted (rcGauges rcs) := by
  induction rcs with
  | nil => rfl
  | cons i rest ih => exact converted_append _ _ (converted_gauge _ _) ih

/-- C6, as stated, fails: for a controller that declares three replicas and has one, the
gauge `rc.default.web` is sent with the value 1, not the declared 3. -/
theorem pollRCs_not_declared_count :
    pollRCs false none { items := [webController], err := none } =
        some [Effect.query Query.controllers false, Effect.gauge "rc.default.web" 1 1] ∧
    webController.specReplicas = 3 ∧
    ¬ (∃ out, pollRCs false none { items := [webController], err := none } = some out ∧
        sentGauges out = [("rc.default.web", webController.specReplicas)]) := by
  refine ⟨by decide, rfl, ?_⟩
  rintro ⟨out, h1, h2⟩
  have h3 : pollRCs false none { items := [webController], err := none } =
      some [Effect.query Query.controllers false, Effect.gauge "rc.default.web" 1 1] := by
    decide
  rw [h3] at h1
  cases h1
  revert h2
  decide

/-- C6, amended: when the client is created, `pollRCs` calls `gauge` exactly once per
controller returned, in list order, with the name `rc.<namespace>.<name>` and the replica
count of the controller's status; the value sent for it is `float64` of that count, which is
the count itself whenever no count exceeds 2^53 in magnitude. -/
theorem pollRCs_gauges (debug : Bool) (rcs : ListResult ReplicationController) :
    ∃ out, pollRCs debug none rcs = some out ∧
      gauges out = rcs.items.map (fun i => ("rc." ++ i.ns ++ "." ++ i.name, i.statusReplicas)) ∧
      sentGauges out =
        rcs.items.map (fun i => ("rc." ++ i.ns ++ "." ++ i.name, float64 i.statusReplicas)) ∧
      ((∀ i ∈ rcs.items, i.statusReplicas.natAbs ≤ 9007199254740992) →
        sentGauges out =
          rcs.items.map (fun i => ("rc." ++ i.ns ++ "." ++ i.name, i.statusReplicas))) := by
  obtain ⟨items, err⟩ := rcs
  have hg : ∀ out, Converted out →
      gauges out = items.map (fun i => ("rc." ++ i.ns ++ "." ++ i.name, i.statusReplicas)) →
      sentGauges out =
          items.map (fun i => ("rc." ++ i.ns ++ "." ++ i.name, float64 i.statusReplicas)) ∧
        ((∀ i ∈ items, i.statusReplicas.natAbs ≤ 9007199254740992) →
          sentGauges out =
            items.map (fun i => ("rc." ++ i.ns ++ "." ++ i.name, i.statusReplicas))) := by
    intro out hc hout
    have h1 : sentGauges out =
        items.map (fun i => ("rc." ++ i.ns ++ "." ++ i.name, float64 i.statusReplicas)) := by
      rw [hc, hout, List.map_map]
      rfl
    refine ⟨h1, fun hsmall => ?_⟩
    rw [h1]
    exact List.map_congr_left (fun i hi => by rw [float64_exact _ (hsmall i hi)])
  cases err with
  | none =>
    have hout : gauges (debugf debug "polling RCs" []
          ++ Effect.query Query.controllers false :: rcGauges items) =
        items.map (fun i => ("rc." ++ i.ns ++ "." ++ i.name, i.statusReplicas)) := by
      simp [gauges_append, gauges_debugf, gauges, gauges_rcGauges]
    have hc : Converted (debugf debug "polling RCs" []
          ++ Effect.query Query.controllers false :: rcGauges items) :=
      converted_append _ _ (converted_debugf _ _ _)
        (converted_query _ _ _ (converted_rcGauges items))
    exact ⟨_, rfl, hout, hg _ hc hout⟩
  | some e =>
    have hout : gauges (debugf debug "polling RCs" []
          ++ (Effect.query Query.controllers true :: rcGauges items
            ++ debugf debug "kubeFunc returned error: %v\n" [Arg.err e]
            ++ incr "kubestats.errors")) =
        items.map (fun i => ("rc." ++ i.ns ++ "." ++ i.name, i.statusReplicas)) := by
      simp [gauges_append, gauges_debugf, gauges, gauges_rcGauges, incr]
    have hc : Converted (debugf debug "polling RCs" []
          ++ (Effect.query Query.controllers true :: rcGauges items
            ++ debugf debug "kubeFunc returned error: %v\n" [Arg.err e]
            ++ incr "kubestats.errors")) :=
      converted_append _ _ (converted_debugf _ _ _)
        (converted_append _ _
          (converted_append _ _ (converted_query _ _ _ (converted_rcGauges items))
            (converted_debugf _ _ _))
          (converted_incr _))
    exact ⟨_, rfl, hout, hg _ hc hout⟩

/-- The amended C6 at a controller with one replica, whose gauge is sent as 1; next to it, a
controller with 2^53 + 1 replicas has its gauge sent as 2^53. -/
theorem pollRCs_gauges_witness :
    (∀ i ∈ [webController], i.statusReplicas.natAbs ≤ 9007199254740992) ∧
    (∃ out, pollRCs false none { items := [webController], err := none } = some out ∧
      gauges out = [webController].map
        (fun i => ("rc." ++ i.ns ++ "." ++ i.name, i.statusReplicas)) ∧
      sentGauges out = [webController].map
        (fun i => ("rc." ++ i.ns ++ "." ++ i.name, float64 i.statusReplicas)) ∧
      ((∀ i ∈ [webController], i.statusReplicas.natAbs ≤ 9007199254740992) →
        sentGauges out = [webController].map
          (fun i => ("rc." ++ i.ns ++ "." ++ i.name, i.statusReplicas)))) ∧
    (pollRCs false none { items := [webController], err := none }).map sentGauges =
      some [("rc.default.web", 1)] ∧
    (pollRCs false none { items := [bigController], err := none }).map sentGauges =
      some [("rc.default.big", 9007199254740992)] :=
  ⟨by decide, pollRCs_gauges false { items := [webController], err := none },
    by decide, by decide⟩

/-! ## The lifecycle controller -/

/-- C9: `workers` launches the scheduler on the new context and returns that context's
cancel function, but it launches nothing else: the watcher is not started. -/
theorem workers_launches_scheduler_only (ctx : Nat) :
    (workers ctx).launched = [Task.scheduler ctx] ∧
    (workers ctx).cancels = ctx ∧
    ∀ c, Task.watcher c ∉ (workers ctx).launched := by
  simp [workers]

/-! ## Nodes without an address -/

theorem nodesLoop_bare (pre post : List Node) (n : Node) :
    ∀ (status : List (String × Int)) (names : List (String × String)),
      nodesLoop status names (pre ++ { n with addresses := [] } :: post) = none := by
  induction pre with
  | nil => intro status names; rfl
  | cons i pre ih =>
    intro status names
    cases h : i.addresses with
    | nil => simp [nodesLoop, h]
    | cons a as => simp [nodesLoop, h, ih]

/-- C10: a node list that holds a node without addresses makes `pollNodes` panic, on
`i.Status.Addresses[0]`, whatever the rest of the list and the other answers are. -/
theorem pollNodes_panics_without_address (debug : Bool) (pre post : List Node) (n : Node)
    (err podsClient : Err) (pods : ListResult Pod) :
    pollNodes debug none { items := pre ++ { n with addresses := [] } :: post, err := err }
        podsClient pods = none ∧
    pollNodes debug none { items := [bareNode], err := none } none { items := [], err := none }
        = none := by
  constructor
  · simp [pollNodes, withKube, nodesLoop_bare]
  · cases debug <;> rfl

/-! ## Counting in a map -/

theorem str_append_cancel (p a b : String) : p ++ a = p ++ b ↔ a = b := by
  constructor
  · intro h
    have h2 := congrArg String.data h
    simp only [String.data_append] at h2
    exact String.ext (List.append_cancel_left h2)
  · intro h
    rw [h]

theorem pods_key_ne_status_key (x k : String) : "nodes.pods." ++ x ≠ "nodes.status." ++ k := by
  intro h
  have h2 := congrArg String.data h
  simp only [String.data_append] at h2
  revert h2
  simp

theorem mem_keys_mapIncr (m : List (String × Int)) (k x : String) :
    x ∈ (mapIncr m k).map Prod.fst ↔ x ∈ m.map Prod.fst ∨ x = k := by
  induction m with
  | nil => simp [mapIncr]
  | cons e m ih =>
    obtain ⟨k', v⟩ := e
    by_cases h : k' = k
    · subst h
      simp only [mapIncr, if_true, List.map_cons, List.mem_cons]
      tauto
    · simp only [mapIncr, h, if_false, List.map_cons, List.mem_cons, ih]
      tauto

theorem counted_nil : Counted [] := by
  simp [Counted]

theorem counted_mapIncr (m : List (String × Int)) (k : String) (h : Counted m) :
    Counted (mapIncr m k) := by
  induction m with
  | nil => simp [mapIncr, Counted]
  | cons e m ih =>
    obtain ⟨k', v⟩ := e
    obtain ⟨hn, hp⟩ := h
    simp only [List.map_cons, List.nodup_cons] at hn
    have hm : Counted m := ⟨hn.2, fun e he => hp e (List.mem_cons_of_mem _ he)⟩
    have hv : 0 < v := hp (k', v) (List.mem_cons_self _ _)
    by_cases hk : k' = k
    · subst hk
      refine ⟨?_, ?_⟩
      · simp only [mapIncr, if_true, List.map_cons, List.nodup_cons]
        exact hn
      · intro e he
        simp only [mapIncr, if_true, List.mem_cons] at he
        rcases he with he | he
        · subst he
          show 0 < v + 1
          omega
        · exact hp e (List.mem_cons_of_mem _ he)
    · obtain ⟨ihn, ihp⟩ := ih hm
      refine ⟨?_, ?_⟩
      · simp only [mapIncr, hk, if_false, List.map_cons, List.nodup_cons]
        refine ⟨?_, ihn⟩
        intro hmem
        rcases (mem_keys_mapIncr m k k').1 hmem with h1 | h1
        · exact hn.1 h1
        · exact hk h1
      · intro e he
        simp only [mapIncr, hk, if_false, List.mem_cons] at he
        rcases he with he | he
        · subst he
          exact hv
        · exact ihp e he

theorem mapCount_mapIncr (m : List (String × Int)) (k x : String) :
    mapCount (mapIncr m k) x = mapCount m x + (if k = x then 1 else 0) := by
  induction m with
  | nil => simp [mapIncr, mapCount]
  | cons e m ih =>
    obtain ⟨k', v⟩ := e
    by_cases hk : k' = k
    · subst hk
      by_cases hx : k' = x
      · simp [mapIncr, mapCount, hx]
      · simp [mapIncr, mapCount, hx]
    · by_cases hx : k' = x
      · have hkx : ¬ k = x := fun h => hk (hx.trans h.symm)
        have hxk : ¬ x = k := fun h => hkx h.symm
        subst hx
        simp [mapIncr, mapCount, hkx, hxk]
      · simp [mapIncr, mapCount, hk, hx, ih]

theorem filter_key_of_not_mem (m : List (String × Int)) (x : String)
    (h : x ∉ m.map Prod.fst) :
    m.filter (fun e => decide (e.1 = x)) = [] ∧ mapCount m x = 0 := by
  induction m with
  | nil => simp [mapCount]
  | cons e m ih =>
    obtain ⟨k', v⟩ := e
    simp only [List.map_cons, List.mem_cons, not_or] at h
    have hk : ¬ k' = x := fun h2 => h.1 h2.symm
    obtain ⟨ih1, ih2⟩ := ih h.2
    simp [mapCount, hk, ih1, ih2]

theorem filter_key_counted (m : List (String × Int)) (x : String) (h : Counted m) :
    m.filter (fun e => decide (e.1 = x)) =
      if 0 < mapCount m x then [(x, mapCount m x)] else [] := by
  induction m with
  | nil => simp [mapCount]
  | cons e m ih =>
    obtain ⟨k', v⟩ := e
    obtain ⟨hn, hp⟩ := h
    simp only [List.map_cons, List.nodup_cons] at hn
    have hm : Counted m := ⟨hn.2, fun e he => hp e (List.mem_cons_of_mem _ he)⟩
    have hv : 0 < v := hp (k', v) (List.mem_cons_self _ _)
    by_cases hk : k' = x
    · subst hk
      obtain ⟨h1, _⟩ := filter_key_of_not_mem m k' hn.1
      simp [mapCount, h1, hv]
    · simp [mapCount, hk, ih hm]

/-! ## Node status -/

theorem counted_countConditions (conds : List NodeCondition) :
    ∀ status, Counted status → Counted (countConditions status conds) := by
  induction conds with
  | nil => intro status h; exact h
  | cons c rest ih =>
    intro status h
    by_cases hc : c.type = "Ready"
    · simp only [countConditions, hc, if_true]
      exact ih _ (counted_mapIncr _ _ h)
    · simp only [countConditions, hc, if_false]
      exact ih _ h

theorem mapCount_countConditions (k : String) (conds : List NodeCondition) :
    ∀ status, mapCount (countConditions status conds) k = mapCount status k +
      ((conds.filter (fun c => decide (c.type = "Ready" ∧ readyKey c.status = k))).length : Int) := by
  induction conds with
  | nil => intro status; simp [countConditions]
  | cons c rest ih =>
    intro status
    by_cases hc : c.type = "Ready"
    · by_cases hk : readyKey c.status = k
      · simp only [countConditions, hc, if_true, ih, mapCount_mapIncr, hk]
        simp [List.filter_cons, hc, hk]
        ring
      · simp only [countConditions, hc, if_true, ih, mapCount_mapIncr, hk, if_false]
        simp [List.filter_cons, hc, hk]
    · simp only [countConditions, hc, if_false, ih]
      simp [List.filter_cons, hc]

theorem nodesLoop_some (nodes : List Node) (h : ∀ n ∈ nodes, n.addresses ≠ []) :
    ∀ status names, ∃ st nm, nodesLoop status names nodes = some (st, nm) := by
  induction nodes with
  | nil => intro status names; exact ⟨status, names, rfl⟩
  | cons i rest ih =>
    intro status names
    have hi := h i (List.mem_cons_self _ _)
    cases ha : i.addresses with
    | nil => exact absurd ha hi
    | cons a as =>
      simp only [nodesLoop, ha]
      exact ih (fun n hn => h n (List.mem_cons_of_mem _ hn)) _ _

theorem nodesLoop_counts (nodes : List Node) :
    ∀ status names st nm, nodesLoop status names nodes = some (st, nm) → Counted status →
      Counted st ∧ ∀ k, mapCount st k = mapCount status k + (readyConditions k nodes : Int) := by
  induction nodes with
  | nil =>
    intro status names st nm h hc
    simp only [nodesLoop, Option.some.injEq, Prod.mk.injEq] at h
    obtain ⟨h1, _⟩ := h
    subst h1
    exact ⟨hc, fun k => by simp [readyConditions]⟩
  | cons i rest ih =>
    intro status names st nm h hc
    cases ha : i.addresses with
    | nil => simp [nodesLoop, ha] at h
    | cons a as =>
      simp only [nodesLoop, ha] at h
      obtain ⟨h1, h2⟩ := ih _ _ _ _ h (counted_countConditions _ _ hc)
      refine ⟨h1, fun k => ?_⟩
      rw [h2 k, mapCount_countConditions]
      simp only [readyConditions]
      push_cast
      ring

theorem gauges_statusGauges (m : List (String × Int)) :
    gauges (statusGauges m) = m.map (fun e => ("nodes.status." ++ e.1, e.2)) := by
  induction m with
  | nil => rfl
  | cons e m ih =>
    obtain ⟨st, num⟩ := e
    simp [statusGauges, gauge, gauges, ih]

theorem gauges_podGauges (names : List (String × String)) (m : List (String × Int)) :
    gauges (podGauges names m) = m.map (fun e => ("nodes.pods." ++ mapGet names e.1, e.2)) := by
  induction m with
  | nil => rfl
  | cons e m ih =>
    obtain ⟨ip, p⟩ := e
    simp [podGauges, gauge, gauges, ih]

theorem converted_statusGauges (m : List (String × Int)) : Converted (statusGauges m) := by
  induction m with
  | nil => rfl
  | cons e m ih =>
    obtain ⟨st, num⟩ := e
    exact converted_append _ _ (converted_gauge _ _) ih

theorem converted_podGauges (names : List (String × String)) (m : List (String × Int)) :
    Converted (podGauges names m) := by
  induction m with
  | nil => rfl
  | cons e m ih =>
    obtain ⟨ip, p⟩ := e
    exact converted_append _ _ (converted_gauge _ _) ih

theorem gauges_pollPods (debug : Bool) (client : Err) (pods : ListResult Pod)
    (names : List (String × String)) :
    ∃ out, pollPods debug client pods names = some out ∧ Converted out ∧
      (gauges out = [] ∨ gauges out = gauges (podGauges names (countPods [] pods.items))) := by
  obtain ⟨items, err⟩ := pods
  cases client with
  | some e => exact ⟨_, rfl, converted_debugf _ _ _, Or.inl (gauges_debugf _ _ _)⟩
  | none =>
    cases err with
    | none =>
      exact ⟨_, rfl, converted_query _ _ _ (converted_podGauges _ _),
        Or.inr (by simp [gauges])⟩
    | some e =>
      exact ⟨_, rfl,
        converted_append _ _
          (converted_append _ _ (converted_query _ _ _ (converted_podGauges _ _))
            (converted_debugf _ _ _))
          (converted_incr _),
        Or.inr (by simp [gauges, gauges_append, gauges_debugf, incr])⟩

theorem filter_status_key (m : List (String × Int)) (k : String) :
    (m.map (fun e => ("nodes.status." ++ e.1, e.2))).filter
        (fun g => decide (g.1 = "nodes.status." ++ k)) =
      (m.filter (fun e => decide (e.1 = k))).map (fun e => ("nodes.status." ++ e.1, e.2)) := by
  induction m with
  | nil => rfl
  | cons e m ih =>
    obtain ⟨st, num⟩ := e
    by_cases h : st = k
    · simp [List.filter_cons, h, ih]
    · have h2 : ¬ ("nodes.status." ++ st = "nodes.status." ++ k) :=
        fun h3 => h ((str_append_cancel _ _ _).1 h3)
      simp only [List.map_cons, List.filter_cons, h, h2, decide_False, ih]
      simp

theorem filter_pods_by_status_key (names : List (String × String)) (m : List (String × Int))
    (k : String) :
    (m.map (fun e => ("nodes.pods." ++ mapGet names e.1, e.2))).filter
        (fun g => decide (g.1 = "nodes.status." ++ k)) = [] := by
  induction m with
  | nil => rfl
  | cons e m ih =>
    simp only [List.map_cons, List.filter_cons, pods_key_ne_status_key, decide_False, ih]
    simp

theorem readyKey_buckets (s : String) :
    ((if readyKey s = "ready" then 1 else 0) + (if readyKey s = "notready" then 1 else 0)
      + (if readyKey s = "unknown" then 1 else 0) : Nat) = 1 := by
  unfold readyKey
  by_cases h1 : s = "True"
  · simp [h1]
  · by_cases h2 : s = "False"
    · simp [h1, h2]
    · simp [h1, h2]

theorem conditions_buckets (conds : List NodeCondition) :
    (conds.filter (fun c => decide (c.type = "Ready" ∧ readyKey c.status = "ready"))).length
      + (conds.filter (fun c => decide (c.type = "Ready" ∧ readyKey c.status = "notready"))).length
      + (conds.filter (fun c => decide (c.type = "Ready" ∧ readyKey c.status = "unknown"))).length
      = (conds.filter (fun c => decide (c.type = "Ready"))).length := by
  induction conds with
  | nil => rfl
  | cons c rest ih =>
    have hb := readyKey_buckets c.status
    by_cases hc : c.type = "Ready"
    · by_cases h1 : readyKey c.status = "ready" <;>
      by_cases h2 : readyKey c.status = "notready" <;>
      by_cases h3 : readyKey c.status = "unknown" <;>
      simp [List.filter_cons, hc, h1, h2, h3] at hb ih ⊢ <;> omega
    · simp [List.filter_cons, hc] at ih ⊢
      omega

theorem readyConditions_buckets (nodes : List Node) :
    readyConditions "ready" nodes + readyConditions "notready" nodes
      + readyConditions "unknown" nodes = readyTotal nodes := by
  induction nodes with
  | nil => rfl
  | cons i rest ih =>
    have h := conditions_buckets i.conditions
    simp only [readyConditions, readyTotal]
    omega

theorem readyTotal_one_each (nodes : List Node)
    (h : ∀ n ∈ nodes, (n.conditions.filter (fun c => decide (c.type = "Ready"))).length = 1) :
    readyTotal nodes = nodes.length := by
  induction nodes with
  | nil => rfl
  | cons i rest ih =>
    have h1 := h i (List.mem_cons_self _ _)
    have h2 := ih (fun n hn => h n (List.mem_cons_of_mem _ hn))
    simp only [readyTotal, List.length_cons, h1, h2]
    omega

/-- C4, as stated, fails: for two ready nodes, one that is not ready and one without a
condition of type "Ready", `pollNodes` emits `nodes.status.ready=2` and
`nodes.status.notready=1` and no gauge `nodes.status.unknown`; the values add up to 3, and
there are 4 nodes. -/
theorem pollNodes_skips_node_without_ready :
    pollNodes false none { items := fourNodes, err := none } none { items := [], err := none } =
      some [Effect.query Query.nodes false, Effect.gauge "nodes.status.ready" 2 2,
        Effect.gauge "nodes.status.notready" 1 1, Effect.query Query.pods false] ∧
    gaugesNamed "nodes.status.unknown"
      [Effect.query Query.nodes false, Effect.gauge "nodes.status.ready" 2 2,
        Effect.gauge "nodes.status.notready" 1 1, Effect.query Query.pods false] = [] ∧
    fourNodes.length = 4 := by
  decide

/-- C4, amended: when every node reports an address, `pollNodes` completes; each condition of
type "Ready" falls in exactly one of the buckets ready (status "True"), notready (status
"False") and unknown (any other status), and a node without such a condition falls in none;
for each bucket that is not empty exactly one gauge `nodes.status.<bucket>` is emitted, with
the number of conditions in the bucket, and none for an empty bucket; the three counts add up
to the number of conditions of type "Ready", which is the number of nodes when every node has
exactly one.  Every gauge is sent as `float64` of its count. -/
theorem pollNodes_status_gauges (debug : Bool) (nodes : ListResult Node) (podsClient : Err)
    (pods : ListResult Pod) (haddr : ∀ n ∈ nodes.items, n.addresses ≠ []) :
    ∃ out, pollNodes debug none nodes podsClient pods = some out ∧
      (∀ k, gaugesNamed ("nodes.status." ++ k) out =
        if 0 < readyConditions k nodes.items
        then [("nodes.status." ++ k, (readyConditions k nodes.items : Int))] else []) ∧
      readyConditions "ready" nodes.items + readyConditions "notready" nodes.items
        + readyConditions "unknown" nodes.items = readyTotal nodes.items ∧
      ((∀ n ∈ nodes.items,
          (n.conditions.filter (fun c => decide (c.type = "Ready"))).length = 1) →
        readyTotal nodes.items = nodes.items.length) ∧
      Converted out := by
  obtain ⟨items, err⟩ := nodes
  obtain ⟨st, nm, hloop⟩ := nodesLoop_some items haddr [] []
  obtain ⟨hst, hcount⟩ := nodesLoop_counts items [] [] st nm hloop counted_nil
  obtain ⟨podsOut, hpods, hpc, hpg⟩ := gauges_pollPods debug podsClient pods nm
  have hbody : Converted (statusGauges st ++ podsOut) :=
    converted_append _ _ (converted_statusGauges st) hpc
  have key : ∀ k, ((gauges (statusGauges st) ++ gauges podsOut).filter
        (fun g => decide (g.1 = "nodes.status." ++ k))) =
      if 0 < readyConditions k items
      then [("nodes.status." ++ k, (readyConditions k items : Int))] else [] := by
    intro k
    have hp : (gauges podsOut).filter (fun g => decide (g.1 = "nodes.status." ++ k)) = [] := by
      rcases hpg with h | h
      · rw [h]
        rfl
      · rw [h, gauges_podGauges, filter_pods_by_status_key]
    rw [List.filter_append, hp, List.append_nil, gauges_statusGauges, filter_status_key,
      filter_key_counted st k hst, hcount k]
    simp only [mapCount, zero_add, Nat.cast_pos]
    split <;> rfl
  cases err with
  | none =>
    refine ⟨debugf debug "polling nodes" []
        ++ Effect.query Query.nodes false :: (statusGauges st ++ podsOut),
      ?_, ?_, readyConditions_buckets items, readyTotal_one_each items,
      converted_append _ _ (converted_debugf _ _ _) (converted_query _ _ _ hbody)⟩
    · simp [pollNodes, withKube, hloop, hpods]
    · intro k
      rw [← key k]
      simp [gaugesNamed, gauges_append, gauges_debugf, gauges]
  | some e =>
    refine ⟨debugf debug "polling nodes" []
        ++ (Effect.query Query.nodes true :: (statusGauges st ++ podsOut)
          ++ debugf debug "kubeFunc returned error: %v\n" [Arg.err e]
          ++ incr "kubestats.errors"),
      ?_, ?_, readyConditions_buckets items, readyTotal_one_each items,
      converted_append _ _ (converted_debugf _ _ _)
        (converted_append _ _
          (converted_append _ _ (converted_query _ _ _ hbody) (converted_debugf _ _ _))
          (converted_incr _))⟩
    · simp [pollNodes, withKube, hloop, hpods]
    · intro k
      rw [← key k]
      simp [gaugesNamed, gauges_append, gauges_debugf, gauges, incr]

/-- The amended C4 at the four nodes of the example, each of which reports an address. -/
theorem pollNodes_status_gauges_witness :
    (∀ n ∈ fourNodes, n.addresses ≠ []) ∧
    ∃ out, pollNodes false none { items := fourNodes, err := none } none
        { items := [], err := none } = some out ∧
      (∀ k, gaugesNamed ("nodes.status." ++ k) out =
        if 0 < readyConditions k fourNodes
        then [("nodes.status." ++ k, (readyConditions k fourNodes : Int))] else []) ∧
      readyConditions "ready" fourNodes + readyConditions "notready" fourNodes
        + readyConditions "unknown" fourNodes = readyTotal fourNodes ∧
      ((∀ n ∈ fourNodes,
          (n.conditions.filter (fun c => decide (c.type = "Ready"))).length = 1) →
        readyTotal fourNodes = fourNodes.length) ∧
      Converted out :=
  ⟨by decide,
    pollNodes_status_gauges false { items := fourNodes, err := none } none
      { items := [], err := none } (by decide)⟩

/-! ## Pods per node -/

theorem counted_countPods (pods : List Pod) :
    ∀ ppn, Counted ppn → Counted (countPods ppn pods) := by
  induction pods with
  | nil => intro ppn h; exact h
  | cons i rest ih => intro ppn h; exact ih _ (counted_mapIncr _ _ h)

theorem mapCount_countPods (ip : String) (pods : List Pod) :
    ∀ ppn, mapCount (countPods ppn pods) ip = mapCount ppn ip + (podsAt ip pods : Int) := by
  induction pods with
  | nil => intro ppn; simp [countPods, podsAt]
  | cons i rest ih =>
    intro ppn
    simp only [countPods, ih, mapCount_mapIncr]
    by_cases h : i.hostIP = ip
    · simp [podsAt, List.filter_cons, h]
      ring
    · simp [podsAt, List.filter_cons, h]

theorem sum_filter_mapIncr (p : String → Bool) (m : List (String × Int)) (k : String) :
    (((mapIncr m k).filter (fun e => p e.1)).map Prod.snd).sum =
      ((m.filter (fun e => p e.1)).map Prod.snd).sum + (if p k = true then 1 else 0) := by
  induction m with
  | nil => cases h : p k <;> simp [mapIncr, List.filter_cons, h]
  | cons e m ih =>
    obtain ⟨k', v⟩ := e
    by_cases hk : k' = k
    · subst hk
      cases h : p k' <;> simp [mapIncr, List.filter_cons, h]
      ring
    · cases h : p k' <;> simp [mapIncr, hk, List.filter_cons, h, ih]
      ring

theorem sum_filter_countPods (p : String → Bool) (pods : List Pod) :
    ∀ ppn, (((countPods ppn pods).filter (fun e => p e.1)).map Prod.snd).sum =
      ((ppn.filter (fun e => p e.1)).map Prod.snd).sum
        + ((pods.filter (fun i => p i.hostIP)).length : Int) := by
  induction pods with
  | nil => intro ppn; simp [countPods]
  | cons i rest ih =>
    intro ppn
    simp only [countPods, ih, sum_filter_mapIncr]
    cases h : p i.hostIP <;> simp [List.filter_cons, h]
    ring

theorem filter_pods_key (names : List (String × String)) (m : List (String × Int))
    (n : String) :
    (m.map (fun e => ("nodes.pods." ++ mapGet names e.1, e.2))).filter
        (fun g => decide (g.1 = "nodes.pods." ++ n)) =
      (m.filter (fun e => decide (mapGet names e.1 = n))).map
        (fun e => ("nodes.pods." ++ mapGet names e.1, e.2)) := by
  induction m with
  | nil => rfl
  | cons e m ih =>
    obtain ⟨ip, c⟩ := e
    by_cases h : mapGet names ip = n
    · simp [List.filter_cons, h, ih]
    · have h2 : ¬ ("nodes.pods." ++ mapGet names ip = "nodes.pods." ++ n) :=
        fun h3 => h ((str_append_cancel _ _ _).1 h3)
      simp only [List.map_cons, List.filter_cons, h, h2, decide_False, ih]
      simp

/-- C5, as stated, fails: with the map built from four nodes and two pods on two host
addresses that no node reports, `pollPods` emits the gauge `nodes.pods.` twice, each time
with value 1, although two pods map to the empty name. -/
theorem pollPods_two_gauges_one_name :
    (nodesLoop [] [] fourNodes).map Prod.snd = some fourNames ∧
    pollPods false none { items := strayPods, err := none } fourNames =
      some [Effect.query Query.pods false, Effect.gauge "nodes.pods." 1 1,
        Effect.gauge "nodes.pods." 1 1] ∧
    podsOn fourNames "" strayPods = 2 ∧
    gaugesNamed ("nodes.pods." ++ "")
      [Effect.query Query.pods false, Effect.gauge "nodes.pods." 1 1,
        Effect.gauge "nodes.pods." 1 1] ≠ [("nodes.pods." ++ "", 2)] := by
  decide

/-- C5, amended: when the client is created, `pollPods` emits exactly one gauge for each
host address found among the pods, named `nodes.pods.<n>` where `n` is the name the address
maps to through the map (the empty name for an address the map lacks), and its value is the
number of pods with that host address; so for each name `n` the values of the gauges
`nodes.pods.<n>` add up to the number of pods whose host address maps to `n`, and no pod is
counted under another name.  Every gauge is sent as `float64` of its count. -/
theorem pollPods_gauges (debug : Bool) (pods : ListResult Pod)
    (names : List (String × String)) :
    ∃ (out : List Effect) (ppn : List (String × Int)),
      pollPods debug none pods names = some out ∧
      gauges out = ppn.map (fun e => ("nodes.pods." ++ mapGet names e.1, e.2)) ∧
      (ppn.map Prod.fst).Nodup ∧
      (∀ ip, ppn.filter (fun e => decide (e.1 = ip)) =
        if 0 < podsAt ip pods.items then [(ip, (podsAt ip pods.items : Int))] else []) ∧
      (∀ n, ((gaugesNamed ("nodes.pods." ++ n) out).map Prod.snd).sum =
        (podsOn names n pods.items : Int)) ∧
      Converted out := by
  obtain ⟨items, err⟩ := pods
  have hc : Counted (countPods [] items) := counted_countPods items [] counted_nil
  have hat : ∀ ip, (countPods [] items).filter (fun e => decide (e.1 = ip)) =
      if 0 < podsAt ip items then [(ip, (podsAt ip items : Int))] else [] := by
    intro ip
    rw [filter_key_counted _ ip hc, mapCount_countPods]
    simp only [mapCount, zero_add, Nat.cast_pos]
  have hsum : ∀ n, ((((countPods [] items).map
        (fun e => ("nodes.pods." ++ mapGet names e.1, e.2))).filter
        (fun g => decide (g.1 = "nodes.pods." ++ n))).map Prod.snd).sum =
      (podsOn names n items : Int) := by
    intro n
    rw [filter_pods_key, List.map_map]
    have h := sum_filter_countPods (fun ip => decide (mapGet names ip = n)) items []
    simp only [List.filter_nil, List.map_nil, List.sum_nil, zero_add] at h
    simpa [podsOn, Function.comp_def] using h
  cases err with
  | none =>
    refine ⟨Effect.query Query.pods false :: podGauges names (countPods [] items),
      countPods [] items, rfl, ?_, hc.1, hat, ?_,
      converted_query _ _ _ (converted_podGauges _ _)⟩
    · simp [gauges, gauges_podGauges]
    · intro n
      rw [← hsum n]
      simp [gaugesNamed, gauges, gauges_podGauges]
  | some e =>
    refine ⟨Effect.query Query.pods true :: podGauges names (countPods [] items)
        ++ debugf debug "kubeFunc returned error: %v\n" [Arg.err e] ++ incr "kubestats.errors",
      countPods [] items, rfl, ?_, hc.1, hat, ?_,
      converted_append _ _
        (converted_append _ _ (converted_query _ _ _ (converted_podGauges _ _))
          (converted_debugf _ _ _))
        (converted_incr _)⟩
    · simp [gauges, gauges_append, gauges_debugf, gauges_podGauges, incr]
    · intro n
      rw [← hsum n]
      simp [gaugesNamed, gauges, gauges_append, gauges_debugf, gauges_podGauges, incr]

/-! ## Errors of a poll cycle -/

theorem errorIncrements_append (a b : List Effect) :
    errorIncrements (a ++ b) = errorIncrements a + errorIncrements b := by
  simp [errorIncrements, counters_append]

theorem failedQueries_append (a b : List Effect) :
    failedQueries (a ++ b) = failedQueries a + failedQueries b := by
  simp [failedQueries, queries_append]

theorem errorIncrements_debugf (debug : Bool) (f : String) (a : List Arg) :
    errorIncrements (debugf debug f a) = 0 := by
  simp [errorIncrements, counters_debugf]

theorem failedQueries_debugf (debug : Bool) (f : String) (a : List Arg) :
    failedQueries (debugf debug f a) = 0 := by
  simp [failedQueries, queries_debugf]

theorem counters_queries_rcGauges (rcs : List ReplicationController) :
    counters (rcGauges rcs) = [] ∧ queries (rcGauges rcs) = [] := by
  induction rcs with
  | nil => exact ⟨rfl, rfl⟩
  | cons i rest ih => simp [rcGauges, gauge, counters, queries, ih]

theorem counters_queries_statusGauges (m : List (String × Int)) :
    counters (statusGauges m) = [] ∧ queries (statusGauges m) = [] := by
  induction m with
  | nil => exact ⟨rfl, rfl⟩
  | cons e m ih =>
    obtain ⟨st, num⟩ := e
    simp [statusGauges, gauge, counters, queries, ih]

theorem counters_queries_podGauges (names : List (String × String)) (m : List (String × Int)) :
    counters (podGauges names m) = [] ∧ queries (podGauges names m) = [] := by
  induction m with
  | nil => exact ⟨rfl, rfl⟩
  | cons e m ih =>
    obtain ⟨ip, c⟩ := e
    simp [podGauges, gauge, counters, queries, ih]

/-- A `kubeFunc` whose effects hold one query and no counter, run with a client: the error
counter moves exactly when the query failed. -/
theorem withKube_one_query (debug : Bool) (q : Query) (body : List Effect) (err : Err)
    (hc : counters body = []) (hq : queries body = []) :
    ∃ out, withKube debug none (fun _ => some (Effect.query q err.isSome :: body, err)) = some out ∧
      errorIncrements out = failure err ∧ failedQueries out = failure err := by
  cases err with
  | none =>
    refine ⟨_, rfl, ?_, ?_⟩
    · simp [errorIncrements, counters, hc, failure]
    · simp [failedQueries, queries, hq, failure]
  | some e =>
    refine ⟨_, rfl, ?_, ?_⟩
    · simp [errorIncrements, counters, counters_append, counters_debugf, hc, failure, incr]
    · simp [failedQueries, queries, queries_append, queries_debugf, hq, failure, incr]

theorem pollRCs_errors (debug : Bool) (rcs : ListResult ReplicationController) :
    ∃ out, pollRCs debug none rcs = some out ∧
      errorIncrements out = failure rcs.err ∧ failedQueries out = failure rcs.err := by
  obtain ⟨o, h, h1, h2⟩ := withKube_one_query debug Query.controllers (rcGauges rcs.items)
    rcs.err (counters_queries_rcGauges _).1 (counters_queries_rcGauges _).2
  refine ⟨debugf debug "polling RCs" [] ++ o, ?_, ?_, ?_⟩
  · simp only [pollRCs, h]
  · rw [errorIncrements_append, errorIncrements_debugf, h1, zero_add]
  · rw [failedQueries_append, failedQueries_debugf, h2, zero_add]

theorem showSvc_errors (debug : Bool) (eps : ListResult Endpoints) (svc : Service) :
    ∃ out, showSvc debug none eps svc = some out ∧
      errorIncrements out = failure eps.err ∧ failedQueries out = failure eps.err := by
  obtain ⟨o, h, h1, h2⟩ := withKube_one_query debug (Query.endpoints svc.ns svc.selector)
    (gauge ("svc." ++ svc.ns ++ "." ++ svc.name) (countAddresses 0 eps.items)) eps.err rfl rfl
  exact ⟨o, h, h1, h2⟩

theorem showAll_errors (debug : Bool) (epClient : Service → Err)
    (eps : Service → ListResult Endpoints) (svcs : List Service)
    (hep : ∀ s ∈ svcs, epClient s = none) :
    ∃ out, showAll debug epClient eps svcs = some out ∧
      errorIncrements out = (svcs.map (fun s => failure (eps s).err)).sum ∧
      failedQueries out = (svcs.map (fun s => failure (eps s).err)).sum := by
  induction svcs with
  | nil => exact ⟨[], rfl, rfl, rfl⟩
  | cons i rest ih =>
    obtain ⟨b, hb, hb1, hb2⟩ := ih (fun s hs => hep s (List.mem_cons_of_mem _ hs))
    obtain ⟨a, ha, ha1, ha2⟩ := showSvc_errors debug (eps i) i
    refine ⟨a ++ b, ?_, ?_, ?_⟩
    · simp only [showAll, hep i (List.mem_cons_self _ _), ha, hb]
    · simp [errorIncrements_append, ha1, hb1]
    · simp [failedQueries_append, ha2, hb2]

theorem pollSVCs_errors (debug : Bool) (svcs : ListResult Service) (epClient : Service → Err)
    (eps : Service → ListResult Endpoints) (hep : ∀ s ∈ svcs.items, epClient s = none) :
    ∃ out, pollSVCs debug none svcs epClient eps = some out ∧
      errorIncrements out = failure svcs.err + (svcs.items.map (fun s => failure (eps s).err)).sum ∧
      failedQueries out = failure svcs.err + (svcs.items.map (fun s => failure (eps s).err)).sum := by
  obtain ⟨shown, hs, hs1, hs2⟩ := showAll_errors debug epClient eps svcs.items hep
  obtain ⟨items, err⟩ := svcs
  cases err with
  | none =>
    refine ⟨debugf debug "polling services" [] ++ Effect.query Query.services false :: shown,
      ?_, ?_, ?_⟩
    · simp [pollSVCs, withKube, hs]
    · rw [errorIncrements_append, errorIncrements_debugf]
      simpa [errorIncrements, counters, failure] using hs1
    · rw [failedQueries_append, failedQueries_debugf]
      simpa [failedQueries, queries, failure] using hs2
  | some e =>
    refine ⟨debugf debug "polling services" [] ++ (Effect.query Query.services true :: shown
        ++ debugf debug "kubeFunc returned error: %v\n" [Arg.err e] ++ incr "kubestats.errors"),
      ?_, ?_, ?_⟩
    · simp [pollSVCs, withKube, hs]
    · have h1 : errorIncrements (Effect.query Query.services true :: shown) =
          errorIncrements shown := by simp [errorIncrements, counters]
      rw [errorIncrements_append, errorIncrements_debugf, errorIncrements_append,
        errorIncrements_append, errorIncrements_debugf, h1, hs1]
      simp [errorIncrements, counters, incr, failure]
      omega
    · have h1 : failedQueries (Effect.query Query.services true :: shown) =
          1 + failedQueries shown := by
        simp [failedQueries, queries, List.filter_cons]
        omega
      rw [failedQueries_append, failedQueries_debugf, failedQueries_append,
        failedQueries_append, failedQueries_debugf, h1, hs2]
      simp [failedQueries, queries, incr, failure]

theorem pollPods_errors (debug : Bool) (pods : ListResult Pod) (names : List (String × String)) :
    ∃ out, pollPods debug none pods names = some out ∧
      errorIncrements out = failure pods.err ∧ failedQueries out = failure pods.err := by
  obtain ⟨o, h, h1, h2⟩ := withKube_one_query debug Query.pods
    (podGauges names (countPods [] pods.items)) pods.err
    (counters_queries_podGauges _ _).1 (counters_queries_podGauges _ _).2
  exact ⟨o, h, h1, h2⟩

theorem pollNodes_panics (debug : Bool) (nodes : ListResult Node) (podsClient : Err)
    (pods : ListResult Pod) (h : nodesLoop [] [] nodes.items = none) :
    pollNodes debug none nodes podsClient pods = none := by
  simp [pollNodes, withKube, h]

theorem pollNodes_errors (debug : Bool) (nodes : ListResult Node) (pods : ListResult Pod)
    (st : List (String × Int)) (nm : List (String × String))
    (h : nodesLoop [] [] nodes.items = some (st, nm)) :
    ∃ out, pollNodes debug none nodes none pods = some out ∧
      errorIncrements out = failure nodes.err + failure pods.err ∧
      failedQueries out = failure nodes.err + failure pods.err := by
  obtain ⟨po, hp, hp1, hp2⟩ := pollPods_errors debug pods nm
  obtain ⟨items, err⟩ := nodes
  have hb1 : errorIncrements (statusGauges st ++ po) = failure pods.err := by
    rw [errorIncrements_append, hp1]
    simp [errorIncrements, (counters_queries_statusGauges st).1]
  have hb2 : failedQueries (statusGauges st ++ po) = failure pods.err := by
    rw [failedQueries_append, hp2]
    simp [failedQueries, (counters_queries_statusGauges st).2]
  cases err with
  | none =>
    refine ⟨debugf debug "polling nodes" [] ++ Effect.query Query.nodes false
        :: (statusGauges st ++ po), ?_, ?_, ?_⟩
    · simp [pollNodes, withKube, h, hp]
    · rw [errorIncrements_append, errorIncrements_debugf]
      simpa [errorIncrements, counters, failure] using hb1
    · rw [failedQueries_append, failedQueries_debugf]
      simpa [failedQueries, queries, failure] using hb2
  | some e =>
    refine ⟨debugf debug "polling nodes" [] ++ (Effect.query Query.nodes true
        :: (statusGauges st ++ po)
        ++ debugf debug "kubeFunc returned error: %v\n" [Arg.err e] ++ incr "kubestats.errors"),
      ?_, ?_, ?_⟩
    · simp [pollNodes, withKube, h, hp]
    · have h1 : errorIncrements (Effect.query Query.nodes true :: (statusGauges st ++ po)) =
          errorIncrements (statusGauges st ++ po) := by simp [errorIncrements, counters]
      rw [errorIncrements_append, errorIncrements_debugf, errorIncrements_append,
        errorIncrements_append, errorIncrements_debugf, h1, hb1]
      simp [errorIncrements, counters, incr, failure]
      omega
    · have h1 : failedQueries (Effect.query Query.nodes true :: (statusGauges st ++ po)) =
          1 + failedQueries (statusGauges st ++ po) := by
        simp [failedQueries, queries, List.filter_cons]
        omega
      rw [failedQueries_append, failedQueries_debugf, failedQueries_append,
        failedQueries_append, failedQueries_debugf, h1, hb2]
      simp [failedQueries, queries, incr, failure]

/-- C7: in a poll cycle in which every client is created, the number of increments of
`kubestats.errors` equals the number of list queries that came back with an error, which is
the number of failing queries among controllers, services, the endpoints of each service,
nodes and pods; the cycle runs to its end whenever every node reports an address; and a
`withKube` call whose client is not created runs no query and increments no counter. -/
theorem pollKubernetes_error_count (debug : Bool) (w : World)
    (hrc : w.rcClient = none) (hsvc : w.svcClient = none)
    (hep : ∀ s ∈ w.svcs.items, w.epClient s = none)
    (hnodes : w.nodesClient = none) (hpods : w.podsClient = none) :
    (∀ out, pollKubernetes debug w = some out →
      errorIncrements out = failedQueries out ∧ errorIncrements out = failures w) ∧
    ((∀ n ∈ w.nodes.items, n.addresses ≠ []) → ∃ out, pollKubernetes debug w = some out) ∧
    (∀ (e : String) (f : Unit → Option (List Effect × Err)),
      ∃ out, withKube debug (some e) f = some out ∧ queries out = [] ∧ counters out = []) := by
  obtain ⟨a, ha, ha1, ha2⟩ := pollRCs_errors debug w.rcs
  obtain ⟨b, hb, hb1, hb2⟩ := pollSVCs_errors debug w.svcs w.epClient w.eps hep
  refine ⟨?_, ?_, ?_⟩
  · intro out hout
    cases hl : nodesLoop [] [] w.nodes.items with
    | none =>
      have hc := pollNodes_panics debug w.nodes w.podsClient w.pods hl
      simp [pollKubernetes, hrc, hsvc, hnodes, ha, hb, hc] at hout
    | some r =>
      obtain ⟨st, nm⟩ := r
      obtain ⟨c, hc, hc1, hc2⟩ := pollNodes_errors debug w.nodes w.pods st nm hl
      simp only [pollKubernetes, hrc, hsvc, hnodes, hpods, ha, hb, hc, Option.some.injEq] at hout
      subst hout
      simp only [errorIncrements_append, failedQueries_append, errorIncrements_debugf,
        failedQueries_debugf, failures]
      omega
  · intro haddr
    obtain ⟨st, nm, hl⟩ := nodesLoop_some w.nodes.items haddr [] []
    obtain ⟨c, hc, _, _⟩ := pollNodes_errors debug w.nodes w.pods st nm hl
    refine ⟨debugf debug "polling kubernetes API" [] ++ a ++ b ++ c, ?_⟩
    simp only [pollKubernetes, hrc, hsvc, hnodes, hpods, ha, hb, hc]
  · intro e f
    exact ⟨_, rfl, queries_debugf _ _ _, counters_debugf _ _ _⟩

/-- C7 at a cycle in which the services query and the pods query fail: two increments. -/
theorem pollKubernetes_error_count_witness :
    (sampleWorld.rcClient = none ∧ sampleWorld.svcClient = none ∧
      (∀ s ∈ sampleWorld.svcs.items, sampleWorld.epClient s = none) ∧
      sampleWorld.nodesClient = none ∧ sampleWorld.podsClient = none) ∧
    failures sampleWorld = 2 ∧
    ((∀ out, pollKubernetes false sampleWorld = some out →
      errorIncrements out = failedQueries out ∧ errorIncrements out = failures sampleWorld) ∧
    ((∀ n ∈ sampleWorld.nodes.items, n.addresses ≠ []) →
      ∃ out, pollKubernetes false sampleWorld = some out) ∧
    (∀ (e : String) (f : Unit → Option (List Effect × Err)),
      ∃ out, withKube false (some e) f = some out ∧ queries out = [] ∧ counters out = [])) ∧
    (∀ n ∈ sampleWorld.nodes.items, n.addresses ≠ []) ∧
    (pollKubernetes false sampleWorld).map errorIncrements = some 2 :=
  ⟨⟨rfl, rfl, fun _ _ => rfl, rfl, rfl⟩, by decide,
    pollKubernetes_error_count false sampleWorld rfl rfl (fun _ _ => rfl) rfl rfl,
    by decide, by decide⟩

/-! ## Watch acquisition -/

theorem skeleton_append (a b : List Step) : skeleton (a ++ b) = skeleton a ++ skeleton b := by
  induction a with
  | nil => rfl
  | cons x a ih => cases x <;> simp [skeleton, ih]

theorem skeleton_eff (l : List Effect) : skeleton (l.map Step.eff) = [] := by
  induction l with
  | nil => rfl
  | cons x l ih => simpa [skeleton] using ih

theorem attempts_skeleton (tr : List Step) : attempts (skeleton tr) = attempts tr := by
  induction tr with
  | nil => rfl
  | cons x tr ih =>
    unfold attempts at ih ⊢
    cases x <;> simp [skeleton, List.count_cons, ih]

theorem sent_skeleton (tr : List Step) : sent (skeleton tr) = sent tr := by
  induction tr with
  | nil => rfl
  | cons x tr ih => cases x <;> simp [skeleton, sent, ih]

theorem attempts_retryRounds (n : Nat) (tail : List Step) :
    attempts (retryRounds n ++ tail) = n + attempts tail := by
  induction n with
  | zero => simp [retryRounds]
  | succ n ih =>
    unfold attempts at ih ⊢
    simp [retryRounds, retryRound, List.count_cons, ih]
    omega

theorem sent_retryRounds (n : Nat) (tail : List Step) :
    sent (retryRounds n ++ tail) = sent tail := by
  induction n with
  | zero => simp [retryRounds]
  | succ n ih => simp [retryRounds, retryRound, sent, ih]

theorem retryRounds_succ_right (n : Nat) :
    retryRounds (n + 1) = retryRound ++ retryRounds n := rfl

theorem kubeEventWatch_failed (debug : Bool) (r : WatchResult) (h : r.failed = true) :
    ∃ out e, kubeEventWatch debug r = (out, Except.error e) := by
  cases r with
  | clientErr e => exact ⟨_, e, rfl⟩
  | watchErr e => exact ⟨_, e, rfl⟩
  | ok w => simp [WatchResult.failed] at h

theorem acquireRetry_succeeds (debug : Bool) (results : Nat → WatchResult) (selects : Nat → Sel)
    (N w : Nat) (hfail : ∀ i, i < N → (results i).failed = true)
    (hok : results N = WatchResult.ok w) (htick : ∀ j, j < N → selects j = Sel.tick) :
    ∀ d k fuel, k + d + 1 = N → d + 1 ≤ fuel →
      ∃ tr, acquireRetry debug results selects fuel k = some tr ∧
        skeleton tr = retryRounds (d + 1) ++ [Step.send w, Step.ret] := by
  intro d
  induction d with
  | zero =>
    intro k fuel hk hfuel
    obtain ⟨f, rfl⟩ : ∃ f, fuel = f + 1 := ⟨fuel - 1, by omega⟩
    have hs : selects k = Sel.tick := htick k (by omega)
    have hr : results (k + 1) = WatchResult.ok w := by
      have : k + 1 = N := by omega
      rw [this, hok]
    refine ⟨_, (by simp only [acquireRetry, hs, hr, kubeEventWatch]; rfl), ?_⟩
    simp [skeleton_append, skeleton_eff, skeleton, retryRounds, retryRound]
  | succ d ih =>
    intro k fuel hk hfuel
    obtain ⟨f, rfl⟩ : ∃ f, fuel = f + 1 := ⟨fuel - 1, by omega⟩
    have hs : selects k = Sel.tick := htick k (by omega)
    obtain ⟨out, e, hr⟩ := kubeEventWatch_failed debug (results (k + 1)) (hfail (k + 1) (by omega))
    obtain ⟨rest, hrest, hskel⟩ := ih (k + 1) f (by omega) (by omega)
    refine ⟨_, (by simp only [acquireRetry, hs, hr, hrest]; rfl), ?_⟩
    rw [retryRounds_succ_right (d + 1)]
    simp [skeleton_append, skeleton_eff, skeleton, hskel, retryRound]

/-- C8: when the first `N` calls of `kubeEventWatch` fail, the next one returns the watch `w`
and every `select` on the way takes the tick, `acquireWatch` returns, given fuel for `N`
retries or more; it has then made exactly `N + 1` calls, the first at once and each later one
right after the tick of a new two-second ticker, and has sent `w`, and nothing else, on the
channel just before returning. -/
theorem acquireWatch_after_failures (debug : Bool) (results : Nat → WatchResult)
    (selects : Nat → Sel) (N w extra : Nat)
    (hfail : ∀ i, i < N → (results i).failed = true)
    (hok : results N = WatchResult.ok w)
    (htick : ∀ j, j < N → selects j = Sel.tick) :
    ∃ tr, acquireWatch debug results selects (N + extra) = some tr ∧
      skeleton tr = Step.attempt :: (retryRounds N ++ [Step.send w, Step.ret]) ∧
      attempts tr = N + 1 ∧ sent tr = [w] := by
  have key : ∃ tr, acquireWatch debug results selects (N + extra) = some tr ∧
      skeleton tr = Step.attempt :: (retryRounds N ++ [Step.send w, Step.ret]) := by
    cases N with
    | zero =>
      refine ⟨_, (by simp only [acquireWatch, hok, kubeEventWatch]; rfl), ?_⟩
      simp [skeleton, retryRounds]
    | succ n =>
      obtain ⟨out, e, hr⟩ := kubeEventWatch_failed debug (results 0) (hfail 0 (by omega))
      obtain ⟨rest, hrest, hskel⟩ := acquireRetry_succeeds debug results selects (n + 1) w
        hfail hok htick n 0 (n + 1 + extra) (by omega) (by omega)
      refine ⟨_, (by simp only [acquireWatch, hr, hrest]; rfl), ?_⟩
      simp [skeleton_append, skeleton_eff, skeleton, hskel]
  obtain ⟨tr, h1, h2⟩ := key
  refine ⟨tr, h1, h2, ?_, ?_⟩
  · rw [← attempts_skeleton, h2]
    have h := attempts_retryRounds N [Step.send w, Step.ret]
    unfold attempts at h ⊢
    simp [List.count_cons, h]
  · rw [← sent_skeleton, h2]
    simp [sent, sent_retryRounds]

/-- C8 with two failures followed by a success: three calls, and the watch 7 is sent. -/
theorem acquireWatch_after_failures_witness :
    (∀ i, i < 2 → (twoFailures i).failed = true) ∧
    twoFailures 2 = WatchResult.ok 7 ∧
    (∀ j, j < 2 → (fun _ => Sel.tick) j = Sel.tick) ∧
    ∃ tr, acquireWatch false twoFailures (fun _ => Sel.tick) (2 + 0) = some tr ∧
      skeleton tr = Step.attempt :: (retryRounds 2 ++ [Step.send 7, Step.ret]) ∧
      attempts tr = 2 + 1 ∧ sent tr = [7] :=
  ⟨by decide, by decide, fun _ _ => rfl,
    acquireWatch_after_failures false twoFailures (fun _ => Sel.tick) 2 7 0
      (by decide) (by decide) (fun _ _ => rfl)⟩

end Kubestats
